import Mathlib

set_option maxRecDepth 100000

/-!
Shallow embedding of the resume-analysis core of the `Ai_resume-backend`
repository, together with proofs settling the frozen claims about it.

Python strings are modelled as `List Char`; the regular expressions and
string primitives used by the source are translated into executable Lean
functions over `List Char` (ASCII approximations of Python's Unicode-aware
character classes, which is exact on the ASCII inputs the source's fixed
keyword set and regexes are built from).
-/

/- ================= Character classes and list-of-char utilities ========== -/

/-- Python regex `\s` (ASCII range): the whitespace characters recognised by
`re.sub(r'\s+', ' ', ...)` and `str.strip()`. -/
def isSpaceC (c : Char) : Bool :=
  (c == ' ') || (c == '\t') || (c == '\n') || (c == '\r') || (c == '\x0b') || (c == '\x0c')

/-- Python regex `\w` (ASCII range): alphanumeric or underscore. -/
def isWordChar (c : Char) : Bool :=
  c.isAlphanum || c == '_'

/-- `startsWithL hay needle`: `needle` is a prefix of `hay`
(Python `str.startswith`). -/
def startsWithL : List Char → List Char → Bool
  | _, [] => true
  | [], _ :: _ => false
  | a :: as, b :: bs => (a == b) && startsWithL as bs

/-- `containsSub hay needle`: `needle` occurs as a contiguous run inside
`hay` (Python's `needle in hay` on strings). -/
def containsSub : List Char → List Char → Bool
  | hay, needle =>
    startsWithL hay needle ||
      (match hay with
       | [] => false
       | _ :: t => containsSub t needle)

/-- Python `str.strip()`: drop whitespace from both ends. -/
def stripChars (l : List Char) : List Char :=
  ((l.dropWhile isSpaceC).reverse.dropWhile isSpaceC).reverse

/- ================= app/utils/helpers.py : clean_text ===================== -/

/-- Worker for `re.sub(r'\s+', ' ', text)`: every maximal whitespace run is
replaced by a single space.  The flag records whether the previous character
belonged to a whitespace run that has already emitted its space. -/
def collapseWsAux : List Char → Bool → List Char
  | [], _ => []
  | c :: t, inRun =>
    if isSpaceC c then
      if inRun then collapseWsAux t true else ' ' :: collapseWsAux t true
    else
      c :: collapseWsAux t false

/-- `re.sub(r'\s+', ' ', text)`. -/
def collapseWs (l : List Char) : List Char :=
  collapseWsAux l false

/-- Python `text.replace('\r\n', '\n')`: left-to-right, non-overlapping. -/
def replaceCRLF : List Char → List Char
  | [] => []
  | [c] => [c]
  | c1 :: c2 :: t =>
    if c1 = '\r' ∧ c2 = '\n' then '\n' :: replaceCRLF t
    else c1 :: replaceCRLF (c2 :: t)

/-- `app/utils/helpers.py::clean_text`: collapse whitespace runs to single
spaces, drop null bytes, normalize CRLF line endings, strip both ends. -/
def clean_text (text : List Char) : List Char :=
  if text = [] then []
  else
    stripChars (replaceCRLF ((collapseWs text).filter (fun c => c ≠ '\x00')))

/- ============ app/utils/resume_validator.py : looks_like_resume ========== -/

/-- The fixed keyword list `RESUME_KEYWORDS` of
`app/utils/resume_validator.py`. -/
def RESUME_KEYWORDS : List (List Char) :=
  ["resume".data, "curriculum vitae".data, "education".data, "experience".data,
   "skills".data, "projects".data, "internship".data, "certification".data,
   "objective".data, "summary".data]

/-- The character class `[\w\.-]` of the email regex. -/
def inA (c : Char) : Bool :=
  isWordChar c || c == '.' || c == '-'

/-- Tail of the email regex after the final dot: `\w{2,4}\b`.  Succeeds when
2, 3 or 4 word characters follow, with a word boundary after them. -/
def tldCheck (l : List Char) : Bool :=
  tldRun l 2 || tldRun l 3 || tldRun l 4
where
  tldRun : List Char → Nat → Bool
    | l, 0 => match l with | [] => true | c :: _ => !(isWordChar c)
    | [], _ + 1 => false
    | c :: t, k + 1 => isWordChar c && tldRun t k

/-- Domain part of the email regex after the `@`: `[\w\.-]+\.\w{2,4}\b`.
The flag records whether at least one domain character precedes the dot
chosen as the final dot (backtracking = trying every dot). -/
def domScan : List Char → Bool → Bool
  | [], _ => false
  | c :: t, seenA =>
    (seenA && (c == '.') && tldCheck t) || (inA c && domScan t true)

/-- Local part continuation of the email regex: having consumed at least one
`[\w\.-]` character, match `[\w\.-]*@` then the domain part. -/
def restAfterOne : List Char → Bool
  | [] => false
  | c :: t => ((c == '@') && domScan t false) || (inA c && restAfterOne t)

/-- Scanner for `re.search(r"\b[\w\.-]+@[\w\.-]+\.\w{2,4}\b", text)`: tries a
match start at every position; the flag is whether the previous character is
a word character (for the leading `\b`). -/
def hasEmailAux : List Char → Bool → Bool
  | [], _ => false
  | c :: t, prevWord =>
    ((prevWord != isWordChar c) && inA c && restAfterOne (c :: t)) ||
      hasEmailAux t (isWordChar c)

/-- The email check of `looks_like_resume`:
`re.search(r"\b[\w\.-]+@[\w\.-]+\.\w{2,4}\b", text)`. -/
def hasEmail (l : List Char) : Bool :=
  hasEmailAux l false

/-- `phoneAt l k`: `k` digits follow, and after them a word boundary
(end of input or a non-word character). -/
def phoneAt : List Char → Nat → Bool
  | l, 0 => match l with | [] => true | c :: _ => !(isWordChar c)
  | [], _ + 1 => false
  | c :: t, k + 1 => c.isDigit && phoneAt t k

/-- Scanner for `re.search(r"\b\d{10}\b", text)`; the flag is whether the
previous character is a word character. -/
def hasPhoneAux : List Char → Bool → Bool
  | [], _ => false
  | c :: t, prevWord =>
    ((!prevWord) && phoneAt (c :: t) 10) || hasPhoneAux t (isWordChar c)

/-- The phone check of `looks_like_resume`: `re.search(r"\b\d{10}\b", text)`. -/
def hasPhone (l : List Char) : Bool :=
  hasPhoneAux l false

/-- `app/utils/resume_validator.py::looks_like_resume`.  The guard
`if not text or len(text) < 500` collapses to the length test, since the
empty string has length `0 < 500`. -/
def looks_like_resume (text : List Char) : Bool :=
  if text.length < 500 then false
  else
    let text_lower := text.map Char.toLower
    let kwScore :=
      RESUME_KEYWORDS.foldl (fun s kw => if containsSub text_lower kw then s + 1 else s) 0
    let s1 := if hasEmail text then kwScore + 1 else kwScore
    let s2 := if hasPhone text then s1 + 1 else s1
    decide (3 ≤ s2)

/-- The evidence score of the classifier, as the spec describes it: number
of distinct keywords present (case-insensitively, one point per keyword),
plus one point for an email-shaped substring, plus one point for a
10-digit number. -/
def evidence_score (text : List Char) : Nat :=
  (RESUME_KEYWORDS.filter (fun kw => containsSub (text.map Char.toLower) kw)).length
    + (if hasEmail text then 1 else 0) + (if hasPhone text then 1 else 0)

/- ============== app/exceptions/custom_exceptions.py ====================== -/

/-- The exception values that can cross the service boundaries:
`PDFExtractionError`, `GroqAPIError` and `AnalysisError` are the custom
classes of `app/exceptions/custom_exceptions.py` (each carrying a message
and a details string); `jsonDecode` is `json.JSONDecodeError`, `valueError`
the `ValueError` raised by the missing-field check, `validationError` the
pydantic error from `AnalysisResult` construction, and `other` any other
exception (e.g. a transport failure inside the LLM client). -/
inductive PyExc where
  | pdfExtraction (message details : String)
  | groqAPI (message details : String)
  | analysis (message details : String)
  | jsonDecode (msg : String)
  | valueError (msg : String)
  | validationError (msg : String)
  | other (msg : String)
deriving DecidableEq

/-- Python `str(e)`: for the custom classes this is the message (their
`__init__` calls `super().__init__(self.message)`); for the rest, the
carried message. -/
def excStr : PyExc → String
  | .pdfExtraction m _ => m
  | .groqAPI m _ => m
  | .analysis m _ => m
  | .jsonDecode m => m
  | .valueError m => m
  | .validationError m => m
  | .other m => m

/- ================= app/services/pdf_service.py =========================== -/

/-- A successfully opened page-structured document, as `PyPDF2.PdfReader`
presents it to `extract_text_from_pdf`: an encryption flag and, per page,
either the text `page.extract_text()` returns or `none` when that call
raises (the page-level failure that is logged and skipped). -/
structure PdfDoc where
  encrypted : Bool
  pages : List (Option (List Char))
deriving DecidableEq

/-- The page texts that survive the extraction loop: failing pages are
skipped (`except ... continue`) and falsy (empty) page texts are not
appended (`if page_text:`). -/
def pageParts (pages : List (Option (List Char))) : List (List Char) :=
  pages.filterMap (fun p =>
    match p with
    | none => none
    | some t => if t = [] then none else some t)

/-- `app/services/pdf_service.py::PDFService.extract_text_from_pdf`, from
the point where the reader has been constructed: encrypted and zero-page
documents fail immediately; otherwise the surviving page texts are joined
with newline separators, cleaned with `clean_text`, and the result must be
non-empty with stripped length at least 50. -/
def extract_text_from_pdf (doc : PdfDoc) : Except PyExc (List Char) :=
  if doc.encrypted then
    .error (.pdfExtraction "PDF is encrypted" "Cannot extract text from encrypted PDFs")
  else if doc.pages.length = 0 then
    .error (.pdfExtraction "PDF has no pages" "The PDF file appears to be empty")
  else
    let full_text := clean_text (List.intercalate ['\n'] (pageParts doc.pages))
    if full_text = [] ∨ (stripChars full_text).length < 50 then
      .error (.pdfExtraction "Insufficient text extracted from PDF"
        "The PDF might be scanned or image-based. Try using a text-based PDF.")
    else
      .ok full_text

/- ================= app/schemas/resume.py ================================= -/

/-- `app/schemas/resume.py::AnalysisResult`, the validated pydantic model:
an integer ATS score and four string lists. -/
structure AnalysisResult where
  atsScore : Int
  strengths : List String
  improvements : List String
  missingKeywords : List String
  suggestions : List String
deriving DecidableEq

/-- The dictionary `json.loads` hands to `AnalysisResult(**analysis_data)`,
abstracted to its key set plus well-typed values for the five analysis
fields (`json.loads` itself is standard-library code outside this
repository). -/
structure ParsedFields where
  keys : List String
  atsScore : Int
  strengths : List String
  improvements : List String
  missingKeywords : List String
  suggestions : List String
deriving DecidableEq

/-- Construction of `AnalysisResult` with its pydantic validation:
`atsScore` must lie in `[0, 100]` (`Field(ge=0, le=100)` and the
`validate_ats_score` validator) and `strengths`, `improvements`,
`suggestions` must be non-empty (`min_items=1` and
`validate_non_empty_list`); `missingKeywords` is unconstrained.  A
violation raises a pydantic `ValidationError` instead of coercing. -/
def mkAnalysisResult (d : ParsedFields) : Except PyExc AnalysisResult :=
  if d.atsScore < 0 ∨ 100 < d.atsScore then
    .error (.validationError "ATS score must be between 0 and 100")
  else if d.strengths = [] then
    .error (.validationError "List cannot be empty")
  else if d.improvements = [] then
    .error (.validationError "List cannot be empty")
  else if d.suggestions = [] then
    .error (.validationError "List cannot be empty")
  else
    .ok ⟨d.atsScore, d.strengths, d.improvements, d.missingKeywords, d.suggestions⟩

/- ================= app/services/groq_service.py ========================== -/

/-- `findIdx c l`: Python `str.find` — index of the first occurrence of `c`
in `l`, `none` standing for `-1`. -/
def findIdx (c : Char) : List Char → Option Nat
  | [] => none
  | a :: t => if a = c then some 0 else (findIdx c t).map Nat.succ

/-- `rfindIdx c l`: Python `str.rfind` — index of the last occurrence. -/
def rfindIdx (c : Char) (l : List Char) : Option Nat :=
  match findIdx c l.reverse with
  | none => none
  | some i => some (l.length - 1 - i)

/-- The three-backtick marker tested by `content.startswith("```")`
(character code 96). -/
def fenceChars : List Char :=
  [Char.ofNat 96, Char.ofNat 96, Char.ofNat 96]

/-- The markdown-fence stripping of `GroqService._parse_response`: strip the
raw reply; if it starts with three backticks, find the first `{` and the
last `}` and, when `end > start`, slice between them (Python
`content[start:end]` with `end = rfind + 1`). -/
def strip_response (response_content : List Char) : List Char :=
  let content := stripChars response_content
  if startsWithL content fenceChars then
    match findIdx '\x7b' content, rfindIdx '\x7d' content with
    | some s, some r =>
      if s < r + 1 then (content.drop s).take (r + 1 - s) else content
    | _, _ => content
  else content

/-- The required field names checked by `GroqService._parse_response`. -/
def required_fields : List String :=
  ["atsScore", "strengths", "improvements", "missingKeywords", "suggestions"]

/-- `app/services/groq_service.py::GroqService._parse_response`,
parameterised by the standard-library `json.loads` (`jloads`; a parse
failure is `json.JSONDecodeError`): strip fences, parse, then raise
`ValueError` at the first required field missing from the parsed keys. -/
def parse_response (jloads : List Char → Except String ParsedFields)
    (response_content : List Char) : Except PyExc ParsedFields :=
  match jloads (strip_response response_content) with
  | .error msg => .error (.jsonDecode msg)
  | .ok data =>
    match required_fields.find? (fun f => !(data.keys.contains f)) with
    | some f => .error (.valueError ("Missing required field: " ++ f))
    | none => .ok data

/-- Fixed opening of the analysis prompt f-string, up to the resume text. -/
def promptPre : List Char :=
  "\nAnalyze the following resume and provide detailed feedback in JSON format.\n\nResume:\n".data

/-- The two newlines between the resume text and the optional
job-description section. -/
def promptMid1 : List Char :=
  "\n\n".data

/-- The optional job-description section:
`{f"Job Description:\n{job_description}" if job_description else ""}`. -/
def jdSection (job_description : List Char) : List Char :=
  if job_description = [] then [] else "Job Description:\n".data ++ job_description

/-- Fixed prompt text between the job-description slot and the optional
`" from the job description"` hint in the `missingKeywords` line. -/
def promptMid2 : List Char :=
  ("\n\nProvide your analysis in the following JSON structure (IMPORTANT: Return ONLY valid JSON, no markdown, no explanations):\n\x7b\n    \"atsScore\": <number between 0-100>,\n    \"strengths\": [<array of 3-5 key strengths as strings>],\n    \"improvements\": [<array of 3-5 areas to improve as strings>],\n    \"missingKeywords\": [<array of 3-5 important missing keywords as strings").data

/-- `{" from the job description" if job_description else ""}`. -/
def jdFrom (job_description : List Char) : List Char :=
  if job_description = [] then [] else " from the job description".data

/-- Fixed prompt text between the `missingKeywords` hint and the optional
alignment clause of the Focus list. -/
def promptMid3 : List Char :=
  (">],\n    \"suggestions\": [<array of 3-5 actionable suggestions as strings>]\n\x7d\n\nFocus on:\n- ATS compatibility and formatting\n- Keyword optimization\n- Content quality and impact\n- Achievement quantification\n- Professional presentation\n").data

/-- `{f"- Alignment with the provided job description" if job_description else ""}`. -/
def jdAlign (job_description : List Char) : List Char :=
  if job_description = [] then []
  else "- Alignment with the provided job description".data

/-- Fixed closing of the prompt. -/
def promptEnd : List Char :=
  "\n\nCRITICAL: Return ONLY the JSON object. No markdown code blocks, no explanations, just pure JSON.\n".data

/-- `app/services/groq_service.py::GroqService._build_analysis_prompt`:
the f-string template with its three segments conditional on a non-empty
job description. -/
def build_analysis_prompt (resume_text job_description : List Char) : List Char :=
  promptPre ++ resume_text ++ promptMid1 ++ jdSection job_description ++
    promptMid2 ++ jdFrom job_description ++ promptMid3 ++
    jdAlign job_description ++ promptEnd

/-- The concatenation of all fixed prompt segments when the job description
is absent: everything in the rendered prompt except the resume text. -/
def promptStaticRest : List Char :=
  promptMid1 ++ promptMid2 ++ promptMid3 ++ promptEnd

/-- The `except` clauses of `GroqService.analyze_resume`:
`json.JSONDecodeError` becomes a `GroqAPIError` with a parse-specific
message; every other exception (transport failure, missing-field
`ValueError`, pydantic `ValidationError`) becomes a `GroqAPIError` with one
generic message carrying `str(e)` as details. -/
def groq_excepts (inner : Except PyExc AnalysisResult) : Except PyExc AnalysisResult :=
  match inner with
  | .ok r => .ok r
  | .error (.jsonDecode m) =>
    .error (.groqAPI "Failed to parse Groq API response" ("Invalid JSON format: " ++ m))
  | .error e =>
    .error (.groqAPI "Failed to analyze resume with Groq API" (excStr e))

/-- The `try` body of `GroqService.analyze_resume` after the prompt has been
built: the LLM call (`llmReply`, an exception for any transport failure),
then `_parse_response`, then validated `AnalysisResult` construction. -/
def groq_body (llmReply : Except PyExc (List Char))
    (jloads : List Char → Except String ParsedFields) : Except PyExc AnalysisResult :=
  match llmReply with
  | .error e => .error e
  | .ok response_content =>
    match parse_response jloads response_content with
    | .error e => .error e
    | .ok data => mkAnalysisResult data

/-- `app/services/groq_service.py::GroqService.analyze_resume`:
the body wrapped in the `except` clauses.  `llm` maps the built prompt to
the reply content. -/
def groq_analyze (llm : List Char → Except PyExc (List Char))
    (jloads : List Char → Except String ParsedFields)
    (resume_text job_description : List Char) : Except PyExc AnalysisResult :=
  groq_excepts (groq_body (llm (build_analysis_prompt resume_text job_description)) jloads)

/- ================= app/services/analysis_service.py ====================== -/

/-- The `except` clauses of `AnalysisService.analyze_resume`:
`except AnalysisError: raise` re-raises unchanged, and
`except Exception as e:` wraps everything else into
`AnalysisError("Unexpected error during analysis", details=str(e))`. -/
def analysis_excepts (inner : Except PyExc AnalysisResult) : Except PyExc AnalysisResult :=
  match inner with
  | .ok r => .ok r
  | .error (.analysis m d) => .error (.analysis m d)
  | .error e => .error (.analysis "Unexpected error during analysis" (excStr e))

/-- `app/services/analysis_service.py::AnalysisService.analyze_resume`:
extraction, the empty-text guard, the resume-likeness gate, then the Groq
call (`groq`, given the resume text and `job_description or ""`), with
every raised exception flowing through the orchestrator's `except`
clauses.  The second component records whether the Groq analysis step was
invoked. -/
def analyze_resume (extraction : Except PyExc (List Char))
    (groq : List Char → List Char → Except PyExc AnalysisResult)
    (job_description : Option (List Char)) : Except PyExc AnalysisResult × Bool :=
  match extraction with
  | .error e => (analysis_excepts (.error e), false)
  | .ok resume_text =>
    if stripChars resume_text = [] then
      (analysis_excepts (.error (.analysis "No text extracted from PDF"
        "The PDF might be empty or image-based")), false)
    else if looks_like_resume resume_text then
      (analysis_excepts (groq resume_text (job_description.getD [])), true)
    else
      (analysis_excepts (.error (.analysis "Invalid document"
        "Uploaded file is not a resume. Please upload a valid resume PDF.")), false)

/-- The complete pipeline: orchestrator over the real extraction, with the
Groq service built from an abstract LLM transport and `json.loads`. -/
def full_pipeline (doc : PdfDoc) (llm : List Char → Except PyExc (List Char))
    (jloads : List Char → Except String ParsedFields)
    (job_description : Option (List Char)) : Except PyExc AnalysisResult × Bool :=
  analyze_resume (extract_text_from_pdf doc)
    (fun rt jd => groq_analyze llm jloads rt jd) job_description

/- ================= General helper lemmas ================================= -/

instance {ε α : Type} [DecidableEq ε] [DecidableEq α] : DecidableEq (Except ε α) := fun a b =>
  match a, b with
  | .error x, .error y =>
    if h : x = y then isTrue (by rw [h]) else isFalse (fun hh => by cases hh; exact h rfl)
  | .error _, .ok _ => isFalse (fun hh => by cases hh)
  | .ok _, .error _ => isFalse (fun hh => by cases hh)
  | .ok x, .ok y =>
    if h : x = y then isTrue (by rw [h]) else isFalse (fun hh => by cases hh; exact h rfl)

theorem foldl_count_eq (p : List Char → Bool) (kws : List (List Char)) :
    ∀ n : Nat, kws.foldl (fun s kw => if p kw then s + 1 else s) n
      = n + (kws.filter p).length := by
  induction kws with
  | nil => intro n; simp
  | cons kw t ih =>
    intro n
    by_cases h : p kw
    · simp only [List.foldl_cons, List.filter_cons, h, if_true, ih, List.length_cons]
      omega
    · simp only [List.foldl_cons, List.filter_cons, h, if_false, ih, Bool.false_eq_true]

/-- `looks_like_resume` in terms of the spec-level evidence score. -/
theorem looks_iff (t : List Char) :
    looks_like_resume t = true ↔ 500 ≤ t.length ∧ 3 ≤ evidence_score t := by
  by_cases h : t.length < 500
  · simp only [looks_like_resume, if_pos h]
    constructor
    · intro hf; cases hf
    · intro ⟨h5, _⟩; omega
  · have h5 : 500 ≤ t.length := Nat.le_of_not_lt h
    simp only [looks_like_resume, evidence_score, if_neg h, foldl_count_eq, Nat.zero_add,
      decide_eq_true_eq]
    by_cases he : hasEmail t <;> by_cases hp : hasPhone t <;>
      simp [he, hp, h5]

/- ================= Claims C2 and C9: the classifier ====================== -/

/-- 480 filler characters, used to push witness texts past the 500-character
minimum. -/
def xs480 : List Char :=
  List.replicate 480 'x'

/-- A 508-character text containing three keywords. -/
def bigResumeText : List Char :=
  xs480 ++ " education experience skills".data

/-- A 501-character text containing exactly two keywords and no email or
phone indicator. -/
def bigTwoScore : List Char :=
  xs480 ++ " education experience".data

/-- A short text (53 characters) containing five keywords. -/
def c9shortText : List Char :=
  "education experience skills internship certification".data

/-- C2: `looks_like_resume` returns false for every text shorter than 500
characters (the empty string included), and for text of length at least 500
it returns true exactly when the evidence score — one point per distinct
keyword present case-insensitively, one for an email-shaped substring, one
for a 10-digit number — is at least 3. -/
theorem C2_classifier_threshold (text : List Char) :
    (text.length < 500 → looks_like_resume text = false) ∧
    (500 ≤ text.length → (looks_like_resume text = true ↔ 3 ≤ evidence_score text)) := by
  constructor
  · intro h
    simp [looks_like_resume, h]
  · intro h5
    constructor
    · intro hl; exact ((looks_iff text).1 hl).2
    · intro h3; exact (looks_iff text).2 ⟨h5, h3⟩

/-- Witness for C2 at the empty string and at a concrete 508-character
text. -/
theorem C2_witness :
    looks_like_resume [] = false ∧
      (looks_like_resume bigResumeText = true ↔ 3 ≤ evidence_score bigResumeText) :=
  ⟨(C2_classifier_threshold []).1 (by decide),
   (C2_classifier_threshold bigResumeText).2 (by decide)⟩

/-- C9 counterexample: a 53-character text with five keyword indicators has
evidence score at least 3, yet the classifier returns false — the claim
omits the 500-character minimum, so "at least 3 indicators implies true" is
false as stated. -/
theorem C9_counterexample :
    3 ≤ evidence_score c9shortText ∧ looks_like_resume c9shortText = false := by
  constructor
  · decide
  · decide

/-- C9 amended: for text of length at least 500, at least 3 indicators force
a true verdict; a text with exactly 2 indicators is always rejected
(whatever its length). -/
theorem C9_boundary (text : List Char) :
    (500 ≤ text.length → 3 ≤ evidence_score text → looks_like_resume text = true) ∧
    (evidence_score text = 2 → looks_like_resume text = false) := by
  constructor
  · intro h5 h3
    exact (looks_iff text).2 ⟨h5, h3⟩
  · intro h2
    cases hl : looks_like_resume text
    · rfl
    · have h := (looks_iff text).1 hl
      omega

/-- Witness for C9 at a 508-character three-keyword text and a
501-character two-keyword text. -/
theorem C9_witness :
    looks_like_resume bigResumeText = true ∧ looks_like_resume bigTwoScore = false :=
  ⟨(C9_boundary bigResumeText).1 (by decide) (by decide),
   (C9_boundary bigTwoScore).2 (by decide)⟩

/- ================= Claim C10: clean_text ================================= -/

/-- Two consecutive whitespace characters occur somewhere in the list. -/
def hasConsecWs : List Char → Bool
  | a :: b :: t => (isSpaceC a && isSpaceC b) || hasConsecWs (b :: t)
  | _ => false

/-- The per-character invariant `clean_text` actually guarantees: no
newline, no carriage return, no null byte, and any whitespace character is
a plain space. -/
def cleanCharOk (c : Char) : Bool :=
  (c != '\n') && (c != '\r') && (c != '\x00') && (!(isSpaceC c) || (c == ' '))

theorem collapse_all_space_is_blank : ∀ (l : List Char) (b : Bool),
    (collapseWsAux l b).all (fun c => !(isSpaceC c) || (c == ' ')) = true := by
  intro l
  induction l with
  | nil => intro b; rfl
  | cons c t ih =>
    intro b
    by_cases h : isSpaceC c = true
    · cases b <;> simp [collapseWsAux, h, ih]
    · simp [collapseWsAux, h, ih]

theorem mem_of_dropWhile {α : Type} (p : α → Bool) :
    ∀ (l : List α) (c : α), c ∈ l.dropWhile p → c ∈ l := by
  intro l
  induction l with
  | nil => intro c h; simpa using h
  | cons a t ih =>
    intro c h
    rw [List.dropWhile_cons] at h
    by_cases hp : p a = true
    · rw [if_pos hp] at h
      exact List.mem_cons_of_mem _ (ih c h)
    · rw [if_neg hp] at h
      exact h

theorem mem_stripChars (l : List Char) (c : Char) (h : c ∈ stripChars l) : c ∈ l := by
  unfold stripChars at h
  rw [List.mem_reverse] at h
  have h1 := mem_of_dropWhile _ _ _ h
  rw [List.mem_reverse] at h1
  exact mem_of_dropWhile _ _ _ h1

theorem mem_replaceCRLF : ∀ (l : List Char) (c : Char), c ∈ replaceCRLF l → c ∈ l
  | [], c, h => by simpa [replaceCRLF] using h
  | [a], c, h => by simpa [replaceCRLF] using h
  | c1 :: c2 :: t, c, h => by
    rw [replaceCRLF] at h
    by_cases hc : c1 = '\r' ∧ c2 = '\n'
    · rw [if_pos hc] at h
      rcases List.mem_cons.1 h with h | h
      · subst h; simp [hc.2]
      · have h2 := mem_replaceCRLF t c h
        simp [h2]
    · rw [if_neg hc] at h
      rcases List.mem_cons.1 h with h | h
      · subst h; simp
      · have h2 := mem_replaceCRLF (c2 :: t) c h
        rcases List.mem_cons.1 h2 with h3 | h3
        · subst h3; simp
        · simp [h3]

/-- C10 amended: every character of `clean_text s` is printable-line
content — no newline, no carriage return, no null byte, and every
whitespace character is a single space — so extracted text is one line;
runs of several spaces, however, can survive (see the counterexample). -/
theorem C10_clean_text_single_line (s : List Char) :
    (clean_text s).all cleanCharOk = true := by
  rw [List.all_eq_true]
  intro c hc
  unfold clean_text at hc
  by_cases hs : s = []
  · rw [if_pos hs] at hc; cases hc
  · rw [if_neg hs] at hc
    have h1 := mem_stripChars _ _ hc
    have h2 := mem_replaceCRLF _ c h1
    have h3 := List.mem_filter.1 h2
    have hnull : c ≠ '\x00' := by simpa using h3.2
    have h4 : (!(isSpaceC c) || (c == ' ')) = true :=
      List.all_eq_true.1 (collapse_all_space_is_blank s false) c h3.1
    unfold cleanCharOk
    rw [Bool.or_eq_true] at h4
    rcases h4 with hns | hsp
    · have hsp2 : isSpaceC c = false := by
        cases hcs : isSpaceC c
        · rfl
        · rw [hcs] at hns; cases hns
      have hn : c ≠ '\n' := by rintro rfl; simp [isSpaceC] at hsp2
      have hr : c ≠ '\r' := by rintro rfl; simp [isSpaceC] at hsp2
      simp [bne_iff_ne, hn, hr, hnull, hsp2]
    · have hc' : c = ' ' := by simpa using hsp
      subst hc'
      decide

/-- C10 counterexample: a null byte splitting a whitespace run survives the
whitespace collapse (which runs first) and is then deleted, leaving two
consecutive spaces — `clean_text "a \x00 b" = "a  b"` — so "no two
consecutive whitespace characters" is false. -/
theorem C10_counterexample :
    clean_text "a \x00 b".data = "a  b".data ∧
      hasConsecWs (clean_text "a \x00 b".data) = true := by
  constructor
  · decide
  · decide

/- ================= Claims C5 and C6: text extraction ===================== -/

/-- Extraction success forces stripped length at least 50 (shared by the
claims about extraction and the orchestrator). -/
theorem extract_ok_len (doc : PdfDoc) (t : List Char)
    (h : extract_text_from_pdf doc = .ok t) : 50 ≤ (stripChars t).length := by
  simp only [extract_text_from_pdf] at h
  split at h
  · cases h
  · split at h
    · cases h
    · split at h
      · cases h
      · rename_i hcond
        injection h with h
        subst h
        push_neg at hcond
        exact hcond.2

/-- C5: for a readable document (not encrypted, at least one page), if the
concatenated and normalized page text has stripped length below 50 then
extraction fails with the insufficient-text error; and whenever extraction
succeeds the returned text has stripped length at least 50. -/
theorem C5_insufficient_text (doc : PdfDoc) :
    (doc.encrypted = false → doc.pages ≠ [] →
      (stripChars (clean_text (List.intercalate ['\n'] (pageParts doc.pages)))).length < 50 →
      extract_text_from_pdf doc = .error (.pdfExtraction "Insufficient text extracted from PDF"
        "The PDF might be scanned or image-based. Try using a text-based PDF.")) ∧
    (∀ t, extract_text_from_pdf doc = .ok t → 50 ≤ (stripChars t).length) := by
  constructor
  · intro henc hpg hlen
    have hpg0 : ¬(doc.pages.length = 0) := by
      intro h0
      exact hpg (List.length_eq_zero.1 h0)
    simp only [extract_text_from_pdf, henc, Bool.false_eq_true, if_false, if_neg hpg0]
    rw [if_pos (Or.inr hlen)]
  · exact extract_ok_len doc

/-- A one-page document whose only page yields five characters. -/
def shortDoc : PdfDoc :=
  ⟨false, [some "short".data]⟩

/-- Witness for C5 at a concrete five-character document. -/
theorem C5_witness :
    extract_text_from_pdf shortDoc = .error (.pdfExtraction "Insufficient text extracted from PDF"
      "The PDF might be scanned or image-based. Try using a text-based PDF.") :=
  (C5_insufficient_text shortDoc).1 rfl (by decide) (by decide)

/-- Replacing a failing page by a page that yields no text, as C6 compares
outcomes. -/
def pageOrEmpty : Option (List Char) → Option (List Char)
  | none => some []
  | some t => some t

theorem pageParts_map_pageOrEmpty (pages : List (Option (List Char))) :
    pageParts (pages.map pageOrEmpty) = pageParts pages := by
  unfold pageParts
  rw [List.filterMap_map]
  congr 1
  funext p
  cases p <;> rfl

/-- C6: for a non-encrypted document with at least one page, extraction is
unchanged if every failing page is replaced by a page yielding no text
(failures are skipped, never abort the run), and a successful result is
exactly the normalization of the surviving page texts joined with newline
separators, in page order. -/
theorem C6_page_failures_skipped (doc : PdfDoc) (henc : doc.encrypted = false)
    (hpg : doc.pages ≠ []) :
    extract_text_from_pdf doc =
        extract_text_from_pdf ⟨doc.encrypted, doc.pages.map pageOrEmpty⟩ ∧
    (∀ t, extract_text_from_pdf doc = .ok t →
        t = clean_text (List.intercalate ['\n'] (pageParts doc.pages))) := by
  constructor
  · simp only [extract_text_from_pdf, pageParts_map_pageOrEmpty, List.length_map]
  · intro t h
    simp only [extract_text_from_pdf] at h
    split at h
    · cases h
    · split at h
      · cases h
      · split at h
        · cases h
        · injection h with h
          exact h.symm

/-- A document with two good pages around one failing page. -/
def mixedDoc : PdfDoc :=
  ⟨false, [some "abc".data, none, some "def".data]⟩

/-- Witness for C6: the three-page document with a failing middle page
extracts identically to the same document with that page yielding no
text. -/
theorem C6_witness :
    extract_text_from_pdf mixedDoc =
      extract_text_from_pdf ⟨false, [some "abc".data, some [], some "def".data]⟩ :=
  (C6_page_failures_skipped mixedDoc rfl (by decide)).1

/- ================= Claim C4: the not_a_resume gate ======================= -/

/-- C4: whenever extraction succeeds with text the classifier rejects, the
orchestrator fails with the invalid-document rejection and the Groq
analysis step (the model completion) is never invoked. -/
theorem C4_no_llm_for_non_resume (doc : PdfDoc)
    (groq : List Char → List Char → Except PyExc AnalysisResult)
    (jd : Option (List Char)) (rt : List Char)
    (hx : extract_text_from_pdf doc = .ok rt)
    (hc : looks_like_resume rt = false) :
    analyze_resume (extract_text_from_pdf doc) groq jd =
      (.error (.analysis "Invalid document"
        "Uploaded file is not a resume. Please upload a valid resume PDF."), false) := by
  rw [hx]
  have h50 := extract_ok_len doc rt hx
  have hne : ¬(stripChars rt = []) := by
    intro h0
    rw [h0] at h50
    simp at h50
  simp [analyze_resume, hne, hc, analysis_excepts]

/-- A one-page document yielding 60 characters of non-resume text. -/
def plainDoc : PdfDoc :=
  ⟨false, [some (List.replicate 60 'x')]⟩

/-- Witness for C4 at a concrete document that extracts successfully but is
not resume-like. -/
theorem C4_witness :
    analyze_resume (extract_text_from_pdf plainDoc)
        (fun _ _ => .error (.other "unused")) none =
      (.error (.analysis "Invalid document"
        "Uploaded file is not a resume. Please upload a valid resume PDF."), false) :=
  C4_no_llm_for_non_resume plainDoc (fun _ _ => .error (.other "unused")) none
    (List.replicate 60 'x') (by decide) (by decide)

/- ================= Claim C1: error propagation =========================== -/

/-- Every failure leaving the orchestrator is an `AnalysisError`. -/
theorem analysis_excepts_error (x : Except PyExc AnalysisResult) (e : PyExc)
    (h : analysis_excepts x = .error e) : ∃ m d, e = .analysis m d := by
  match x with
  | .ok r => cases h
  | .error (.pdfExtraction m d) => exact ⟨_, _, (Except.error.inj h).symm⟩
  | .error (.groqAPI m d) => exact ⟨_, _, (Except.error.inj h).symm⟩
  | .error (.analysis m d) => exact ⟨_, _, (Except.error.inj h).symm⟩
  | .error (.jsonDecode m) => exact ⟨_, _, (Except.error.inj h).symm⟩
  | .error (.valueError m) => exact ⟨_, _, (Except.error.inj h).symm⟩
  | .error (.validationError m) => exact ⟨_, _, (Except.error.inj h).symm⟩
  | .error (.other m) => exact ⟨_, _, (Except.error.inj h).symm⟩

/-- C1 counterexample: a `PDFExtractionError` raised by extraction does not
reach the orchestrator's caller as its original kind — the orchestrator's
broad `except Exception` handler re-wraps it into the generic
`AnalysisError("Unexpected error during analysis")`, keeping only `str(e)`
as details. -/
theorem C1_counterexample :
    (analyze_resume
        (.error (.pdfExtraction "PDF is encrypted" "Cannot extract text from encrypted PDFs"))
        (fun _ _ => .error (.other "unused")) none).1
      = .error (.analysis "Unexpected error during analysis" "PDF is encrypted") := rfl

/-- C1 amended: only `AnalysisError` values raised inside the orchestrator
body propagate unmodified; every other failure is downgraded.  Whatever the
extraction outcome and the Groq body outcome, (i) any failure reaches the
caller as an `AnalysisError`; (ii) a `PDFExtractionError` from extraction is
re-wrapped into the generic unexpected-error `AnalysisError` carrying only
its message; (iii) a JSON-decode failure in the Groq body is first wrapped
into a `GroqAPIError` by the Groq service and then likewise downgraded, the
caller seeing only the fixed parse-failure message. -/
theorem C1_failures_downgraded (extraction : Except PyExc (List Char))
    (gInner : List Char → List Char → Except PyExc AnalysisResult)
    (jd : Option (List Char)) :
    (∀ e, (analyze_resume extraction (fun rt j => groq_excepts (gInner rt j)) jd).1 = .error e →
      ∃ m d, e = .analysis m d) ∧
    (∀ m d, extraction = .error (.pdfExtraction m d) →
      (analyze_resume extraction (fun rt j => groq_excepts (gInner rt j)) jd).1 =
        .error (.analysis "Unexpected error during analysis" m)) ∧
    (∀ rt m, extraction = .ok rt → stripChars rt ≠ [] → looks_like_resume rt = true →
      gInner rt (jd.getD []) = .error (.jsonDecode m) →
      (analyze_resume extraction (fun rt j => groq_excepts (gInner rt j)) jd).1 =
        .error (.analysis "Unexpected error during analysis"
          "Failed to parse Groq API response")) := by
  refine ⟨?_, ?_, ?_⟩
  · intro e h
    match hx : extraction with
    | .error e0 =>
      exact analysis_excepts_error _ _ h
    | .ok rt =>
      unfold analyze_resume at h
      dsimp only at h
      by_cases h1 : stripChars rt = []
      · rw [if_pos h1] at h
        dsimp only at h
        exact analysis_excepts_error _ _ h
      · rw [if_neg h1] at h
        by_cases h2 : looks_like_resume rt = true
        · rw [if_pos h2] at h
          dsimp only at h
          exact analysis_excepts_error _ _ h
        · rw [if_neg h2] at h
          dsimp only at h
          exact analysis_excepts_error _ _ h
  · intro m d hx
    rw [hx]
    rfl
  · intro rt m hx hne hlooks hg
    rw [hx]
    simp only [analyze_resume, if_neg hne, hlooks, if_true, hg]
    rfl

/-- Witness for C1 at a concrete extraction failure. -/
theorem C1_witness :
    (analyze_resume (.error (.pdfExtraction "Failed to read PDF file"
        "The file might be corrupted or not a valid PDF"))
        (fun rt j => groq_excepts ((fun _ _ => .error (.other "x")) rt j)) none).1 =
      .error (.analysis "Unexpected error during analysis" "Failed to read PDF file") :=
  (C1_failures_downgraded _ (fun _ _ => .error (.other "x")) none).2.1
    "Failed to read PDF file" "The file might be corrupted or not a valid PDF" rfl

/- ================= Claim C3: AnalysisResult constraints ================== -/

/-- A validated construction satisfies the field constraints and preserves
the parsed values. -/
theorem mk_ok_constraints (d : ParsedFields) (r : AnalysisResult)
    (h : mkAnalysisResult d = .ok r) :
    0 ≤ r.atsScore ∧ r.atsScore ≤ 100 ∧ r.strengths ≠ [] ∧
      r.improvements ≠ [] ∧ r.suggestions ≠ [] := by
  unfold mkAnalysisResult at h
  split at h
  · cases h
  · split at h
    · cases h
    · split at h
      · cases h
      · split at h
        · cases h
        · rename_i hscore hst him hsg
          injection h with h
          subst h
          push_neg at hscore
          exact ⟨hscore.1, hscore.2, hst, him, hsg⟩

/-- Orchestrator success means the wrapped computation succeeded. -/
theorem analysis_excepts_ok (x : Except PyExc AnalysisResult) (r : AnalysisResult)
    (h : analysis_excepts x = .ok r) : x = .ok r := by
  match x with
  | .ok r0 => rw [Except.ok.inj h]
  | .error (.pdfExtraction m d) => cases h
  | .error (.groqAPI m d) => cases h
  | .error (.analysis m d) => cases h
  | .error (.jsonDecode m) => cases h
  | .error (.valueError m) => cases h
  | .error (.validationError m) => cases h
  | .error (.other m) => cases h

/-- Groq-service success means the wrapped body succeeded. -/
theorem groq_excepts_ok (x : Except PyExc AnalysisResult) (r : AnalysisResult)
    (h : groq_excepts x = .ok r) : x = .ok r := by
  match x with
  | .ok r0 => rw [Except.ok.inj h]
  | .error (.pdfExtraction m d) => cases h
  | .error (.groqAPI m d) => cases h
  | .error (.analysis m d) => cases h
  | .error (.jsonDecode m) => cases h
  | .error (.valueError m) => cases h
  | .error (.validationError m) => cases h
  | .error (.other m) => cases h

/-- C3: a successfully constructed `AnalysisResult` satisfies its field
constraints with the parsed values preserved; valid fields always construct
(with `missingKeywords` allowed to be empty); any constraint violation
raises a pydantic validation error instead of coercing; and every
`AnalysisResult` the full pipeline returns satisfies the constraints. -/
theorem C3_result_invariants :
    (∀ d r, mkAnalysisResult d = .ok r →
      0 ≤ r.atsScore ∧ r.atsScore ≤ 100 ∧ r.strengths ≠ [] ∧
        r.improvements ≠ [] ∧ r.suggestions ≠ []) ∧
    (∀ d : ParsedFields, 0 ≤ d.atsScore → d.atsScore ≤ 100 → d.strengths ≠ [] →
      d.improvements ≠ [] → d.suggestions ≠ [] →
      mkAnalysisResult d =
        .ok ⟨d.atsScore, d.strengths, d.improvements, d.missingKeywords, d.suggestions⟩) ∧
    (∀ d : ParsedFields,
      (d.atsScore < 0 ∨ 100 < d.atsScore ∨ d.strengths = [] ∨
        d.improvements = [] ∨ d.suggestions = []) →
      ∃ m, mkAnalysisResult d = .error (.validationError m)) ∧
    (∀ doc llm jloads jd r, (full_pipeline doc llm jloads jd).1 = .ok r →
      0 ≤ r.atsScore ∧ r.atsScore ≤ 100 ∧ r.strengths ≠ [] ∧
        r.improvements ≠ [] ∧ r.suggestions ≠ []) := by
  refine ⟨mk_ok_constraints, ?_, ?_, ?_⟩
  · intro d h0 h100 hst him hsg
    have hscore : ¬(d.atsScore < 0 ∨ 100 < d.atsScore) := by
      push_neg
      exact ⟨h0, h100⟩
    simp only [mkAnalysisResult, if_neg hscore, if_neg hst, if_neg him, if_neg hsg]
  · intro d hviol
    unfold mkAnalysisResult
    by_cases h1 : d.atsScore < 0 ∨ 100 < d.atsScore
    · exact ⟨_, if_pos h1⟩
    · rw [if_neg h1]
      by_cases h2 : d.strengths = []
      · exact ⟨_, if_pos h2⟩
      · rw [if_neg h2]
        by_cases h3 : d.improvements = []
        · exact ⟨_, if_pos h3⟩
        · rw [if_neg h3]
          by_cases h4 : d.suggestions = []
          · exact ⟨_, if_pos h4⟩
          · exact absurd hviol (by push_neg at h1 ⊢; exact ⟨h1.1, h1.2, h2, h3, h4⟩)
  · intro doc llm jloads jd r h
    unfold full_pipeline at h
    match hx : extract_text_from_pdf doc with
    | .error e0 =>
      rw [hx] at h
      have hcontra := analysis_excepts_ok _ _ h
      cases hcontra
    | .ok rt =>
      rw [hx] at h
      unfold analyze_resume at h
      dsimp only at h
      by_cases h1 : stripChars rt = []
      · rw [if_pos h1] at h
        cases h
      · rw [if_neg h1] at h
        by_cases h2 : looks_like_resume rt = true
        · rw [if_pos h2] at h
          dsimp only at h
          have hg := analysis_excepts_ok _ _ h
          unfold groq_analyze at hg
          have hb := groq_excepts_ok _ _ hg
          unfold groq_body at hb
          match hl : llm (build_analysis_prompt rt (jd.getD [])) with
          | .error e1 =>
            rw [hl] at hb
            dsimp only at hb
            cases hb
          | .ok reply =>
            rw [hl] at hb
            dsimp only at hb
            match hp : parse_response jloads reply with
            | .error e2 =>
              rw [hp] at hb
              cases hb
            | .ok data =>
              rw [hp] at hb
              exact mk_ok_constraints data r hb
        · rw [if_neg h2] at h
          cases h

/-- Witness for C3: a valid parsed object with empty `missingKeywords`
constructs, and an out-of-range score is rejected with a validation
error. -/
theorem C3_witness :
    mkAnalysisResult ⟨required_fields, 75, ["a"], ["b"], [], ["c"]⟩ =
        .ok ⟨75, ["a"], ["b"], [], ["c"]⟩ ∧
      ∃ m, mkAnalysisResult ⟨required_fields, 150, ["a"], ["b"], [], ["c"]⟩ =
        .error (.validationError m) :=
  ⟨C3_result_invariants.2.1 ⟨required_fields, 75, ["a"], ["b"], [], ["c"]⟩
      (by decide) (by decide) (by decide) (by decide) (by decide),
    C3_result_invariants.2.2.1 ⟨required_fields, 150, ["a"], ["b"], [], ["c"]⟩
      (Or.inr (Or.inl (by decide)))⟩

/- ================= Claim C7: fence stripping is content-preserving ======= -/

theorem startsWithL_append (n : List Char) : ∀ (u v : List Char),
    startsWithL u n = true → startsWithL (u ++ v) n = true := by
  induction n with
  | nil => intro u v _; cases u ++ v <;> rfl
  | cons b bs ih =>
    intro u v h
    cases u with
    | nil => cases h
    | cons a t =>
      simp only [startsWithL, Bool.and_eq_true] at h
      simp only [List.cons_append, startsWithL, Bool.and_eq_true]
      exact ⟨h.1, ih t v h.2⟩

theorem findIdx_cons_self (c : Char) (t : List Char) : findIdx c (c :: t) = some 0 := by
  simp [findIdx]

theorem findIdx_append_of_not_mem (c : Char) : ∀ (u v : List Char), c ∉ u →
    findIdx c (u ++ v) = (findIdx c v).map (fun i => i + u.length) := by
  intro u
  induction u with
  | nil =>
    intro v _
    simp only [List.nil_append, List.length_nil]
    cases findIdx c v <;> simp
  | cons a t ih =>
    intro v hn
    have ha : ¬(a = c) := by
      intro h
      exact hn (by rw [h]; exact List.mem_cons_self c t)
    have ht : c ∉ t := fun h => hn (List.mem_cons_of_mem _ h)
    simp only [List.cons_append, findIdx, if_neg ha, List.append_eq]
    rw [ih v ht]
    simp only [List.length_cons, Option.map_map]
    cases findIdx c v with
    | none => rfl
    | some i =>
      have harith : i + t.length + 1 = i + (t.length + 1) := by omega
      simp [Function.comp, harith]

/-- `stripChars` of a list whose first and core-final characters are not
whitespace: only trailing whitespace of the suffix is removed. -/
theorem stripChars_fixed (pre ser post : List Char)
    (hpre : ∃ a t, pre = a :: t ∧ isSpaceC a = false)
    (hser : ∃ b s, ser.reverse = b :: s ∧ isSpaceC b = false) :
    stripChars (pre ++ ser ++ post) =
      pre ++ ser ++ (post.reverse.dropWhile isSpaceC).reverse := by
  obtain ⟨a, t, rfl, hna⟩ := hpre
  obtain ⟨b, s, hrev, hnb⟩ := hser
  unfold stripChars
  have h1 : (a :: t ++ ser ++ post).dropWhile isSpaceC = a :: t ++ ser ++ post := by
    simp only [List.cons_append, List.dropWhile_cons, hna, Bool.false_eq_true, if_false]
  rw [h1]
  have h2 : (a :: t ++ ser ++ post).reverse
      = post.reverse ++ (ser.reverse ++ (a :: t).reverse) := by
    simp [List.reverse_append, List.append_assoc]
  rw [h2]
  have h3 : (ser.reverse ++ (a :: t).reverse).dropWhile isSpaceC
      = ser.reverse ++ (a :: t).reverse := by
    rw [hrev]
    simp only [List.cons_append, List.dropWhile_cons, hnb, Bool.false_eq_true, if_false]
  rw [List.dropWhile_append]
  by_cases he : (post.reverse.dropWhile isSpaceC).isEmpty = true
  · rw [if_pos he, h3]
    rw [List.isEmpty_iff] at he
    simp [he, List.reverse_append]
  · rw [if_neg he]
    simp [List.reverse_append, List.append_assoc]

/-- On a fenced reply — prose starting with three backticks and containing
no opening brace, then a braced JSON object, then prose containing no
closing brace — the slice of `_parse_response` recovers exactly the braced
object. -/
theorem strip_response_fenced (pre mid post : List Char)
    (hpre : startsWithL pre fenceChars = true)
    (hlb : '\x7b' ∉ pre) (hrb : '\x7d' ∉ post) :
    strip_response (pre ++ ('\x7b' :: mid ++ ['\x7d']) ++ post) =
      '\x7b' :: mid ++ ['\x7d'] := by
  obtain ⟨a, t, rfl⟩ : ∃ a t, pre = a :: t := by
    cases pre with
    | nil => cases hpre
    | cons a t => exact ⟨a, t, rfl⟩
  have ha : a = Char.ofNat 96 := by
    simp only [fenceChars, startsWithL, Bool.and_eq_true, beq_iff_eq] at hpre
    exact hpre.1
  have hna : isSpaceC a = false := by
    rw [ha]; decide
  have hserrev : ('\x7b' :: mid ++ ['\x7d']).reverse = '\x7d' :: (mid.reverse ++ ['\x7b']) := by
    simp
  have hstrip := stripChars_fixed (a :: t) ('\x7b' :: mid ++ ['\x7d']) post
    ⟨a, t, rfl, hna⟩ ⟨'\x7d', mid.reverse ++ ['\x7b'], hserrev, by decide⟩
  have hpost : ∀ c, c ∈ (post.reverse.dropWhile isSpaceC).reverse → c ∈ post := by
    intro c h
    rw [List.mem_reverse] at h
    have h2 := mem_of_dropWhile _ _ _ h
    rwa [List.mem_reverse] at h2
  unfold strip_response
  rw [hstrip]
  have hfencetest : startsWithL
      (a :: t ++ ('\x7b' :: mid ++ ['\x7d']) ++ (post.reverse.dropWhile isSpaceC).reverse)
      fenceChars = true := by
    rw [List.append_assoc]
    exact startsWithL_append fenceChars (a :: t) _ hpre
  rw [if_pos hfencetest]
  have hfind : findIdx '\x7b'
      (a :: t ++ ('\x7b' :: mid ++ ['\x7d']) ++ (post.reverse.dropWhile isSpaceC).reverse)
      = some (a :: t).length := by
    rw [List.append_assoc, findIdx_append_of_not_mem _ _ _ hlb]
    simp only [List.cons_append, findIdx_cons_self]
    simp
  have hrfind : rfindIdx '\x7d'
      (a :: t ++ ('\x7b' :: mid ++ ['\x7d']) ++ (post.reverse.dropWhile isSpaceC).reverse)
      = some ((a :: t).length + mid.length + 1) := by
    unfold rfindIdx
    have hrev : (a :: t ++ ('\x7b' :: mid ++ ['\x7d']) ++ (post.reverse.dropWhile isSpaceC).reverse).reverse
        = ((post.reverse.dropWhile isSpaceC).reverse).reverse ++
            ('\x7d' :: (mid.reverse ++ ['\x7b'] ++ (a :: t).reverse)) := by
      simp [List.reverse_append, List.append_assoc]
    rw [hrev]
    have hnotmem : '\x7d' ∉ ((post.reverse.dropWhile isSpaceC).reverse).reverse := by
      intro h
      rw [List.mem_reverse] at h
      exact hrb (hpost _ h)
    rw [findIdx_append_of_not_mem _ _ _ hnotmem]
    rw [show ('\x7d' :: (mid.reverse ++ ['\x7b'] ++ (a :: t).reverse))
        = '\x7d' :: (mid.reverse ++ ['\x7b'] ++ (a :: t).reverse) from rfl,
      findIdx_cons_self]
    simp [List.length_append, List.length_reverse]
    omega
  rw [hfind, hrfind]
  dsimp only
  have hlt : (a :: t).length < (a :: t).length + mid.length + 1 + 1 := by omega
  rw [if_pos hlt]
  have hdrop : (a :: t ++ ('\x7b' :: mid ++ ['\x7d']) ++ (post.reverse.dropWhile isSpaceC).reverse).drop
      (a :: t).length = ('\x7b' :: mid ++ ['\x7d']) ++ (post.reverse.dropWhile isSpaceC).reverse := by
    rw [List.append_assoc]
    exact List.drop_left (a :: t) _
  rw [hdrop]
  have htake : (a :: t).length + mid.length + 1 + 1 - (a :: t).length
      = ('\x7b' :: mid ++ ['\x7d']).length := by
    simp [List.length_append]
    omega
  rw [htake]
  exact List.take_left ('\x7b' :: mid ++ ['\x7d']) _

/-- An unfenced braced object passes through `_parse_response`'s cleaning
untouched. -/
theorem strip_response_bare (mid : List Char) :
    strip_response ('\x7b' :: mid ++ ['\x7d']) = '\x7b' :: mid ++ ['\x7d'] := by
  have h1 : stripChars ('\x7b' :: mid ++ ['\x7d']) = '\x7b' :: mid ++ ['\x7d'] := by
    have := stripChars_fixed ['\x7b'] (mid ++ ['\x7d']) []
      ⟨'\x7b', [], rfl, by decide⟩
      ⟨'\x7d', mid.reverse, by simp, by decide⟩
    simpa using this
  unfold strip_response
  rw [h1]
  have h2 : startsWithL ('\x7b' :: mid ++ ['\x7d']) fenceChars = false := by
    simp [startsWithL, fenceChars]
  dsimp only
  rw [h2]
  simp

/-- C7: for every reply wrapped in a markdown fence — prose before the
object starting with three backticks and containing no `\x7b`, prose after
it containing no `\x7d` — `_parse_response` (parameterised by the
standard-library JSON parser) returns exactly what it returns on the bare
braced object: the fence-stripping slice from first `\x7b` to last `\x7d`
is content-preserving, so the parsed field-to-value mapping (and the
required-field check on it) is identical. -/
theorem C7_fence_preserving (jloads : List Char → Except String ParsedFields)
    (pre mid post : List Char)
    (hpre : startsWithL pre fenceChars = true)
    (hlb : '\x7b' ∉ pre) (hrb : '\x7d' ∉ post) :
    parse_response jloads (pre ++ ('\x7b' :: mid ++ ['\x7d']) ++ post) =
      parse_response jloads ('\x7b' :: mid ++ ['\x7d']) := by
  unfold parse_response
  rw [strip_response_fenced pre mid post hpre hlb hrb, strip_response_bare mid]

/-- Witness for C7 at a concrete fenced reply. -/
theorem C7_witness :
    parse_response (fun _ => .error "stub")
        ("```json\n".data ++ ('\x7b' :: "\"atsScore\": 75".data ++ ['\x7d']) ++ "\n```".data) =
      parse_response (fun _ => .error "stub")
        ('\x7b' :: "\"atsScore\": 75".data ++ ['\x7d']) :=
  C7_fence_preserving (fun _ => .error "stub") "```json\n".data "\"atsScore\": 75".data
    "\n```".data (by decide) (by decide) (by decide)

/- ================= Claim C8: prompt construction ========================= -/

theorem startsWithL_self (n : List Char) : ∀ v, startsWithL (n ++ v) n = true := by
  induction n with
  | nil => intro v; cases v <;> rfl
  | cons a t ih =>
    intro v
    simp only [List.cons_append, startsWithL, Bool.and_eq_true]
    exact ⟨by simp, ih v⟩

theorem containsSub_append_mid (n : List Char) : ∀ (x y : List Char),
    containsSub (x ++ (n ++ y)) n = true := by
  intro x
  induction x with
  | nil =>
    intro y
    rw [List.nil_append, containsSub.eq_def]
    dsimp only
    rw [startsWithL_self]
    rfl
  | cons c t ih =>
    intro y
    rw [List.cons_append, containsSub.eq_def]
    dsimp only
    simp only [ih y, Bool.or_true]

/-- C8: with a non-empty job description the rendered prompt contains the
description verbatim right after the `Job Description:` heading and
contains the alignment-critique clause; with an empty (absent) description
the prompt is exactly the fixed text around the resume slot, and that fixed
text contains neither a job-description section nor the alignment clause
anywhere. -/
theorem C8_prompt_sections (resume_text job_description : List Char) :
    (job_description ≠ [] →
      containsSub (build_analysis_prompt resume_text job_description)
          ("Job Description:\n".data ++ job_description) = true ∧
        containsSub (build_analysis_prompt resume_text job_description)
          "- Alignment with the provided job description".data = true) ∧
    (build_analysis_prompt resume_text [] =
      promptPre ++ resume_text ++ promptStaticRest) ∧
    containsSub (promptPre ++ promptStaticRest) "Job Description".data = false ∧
    containsSub (promptPre ++ promptStaticRest)
      "- Alignment with the provided job description".data = false := by
  refine ⟨?_, ?_, ?_, ?_⟩
  · intro h
    constructor
    · have heq : build_analysis_prompt resume_text job_description
          = (promptPre ++ resume_text ++ promptMid1) ++
            (("Job Description:\n".data ++ job_description) ++
              (promptMid2 ++ jdFrom job_description ++ promptMid3 ++
                jdAlign job_description ++ promptEnd)) := by
        simp [build_analysis_prompt, jdSection, h, List.append_assoc]
      rw [heq]
      exact containsSub_append_mid _ _ _
    · have heq : build_analysis_prompt resume_text job_description
          = (promptPre ++ resume_text ++ promptMid1 ++ jdSection job_description ++
              promptMid2 ++ jdFrom job_description ++ promptMid3) ++
            ("- Alignment with the provided job description".data ++ promptEnd) := by
        simp [build_analysis_prompt, jdAlign, h, List.append_assoc]
      rw [heq]
      exact containsSub_append_mid _ _ _
  · simp [build_analysis_prompt, promptStaticRest, jdSection, jdFrom, jdAlign,
      List.append_assoc]
  · decide
  · decide

/-- Witness for C8 at a concrete resume text and job description. -/
theorem C8_witness :
    containsSub (build_analysis_prompt "r".data "jobby".data)
        ("Job Description:\n".data ++ "jobby".data) = true ∧
      containsSub (build_analysis_prompt "r".data "jobby".data)
        "- Alignment with the provided job description".data = true ∧
      build_analysis_prompt "r".data [] = promptPre ++ "r".data ++ promptStaticRest :=
  ⟨((C8_prompt_sections "r".data "jobby".data).1 (by decide)).1,
   ((C8_prompt_sections "r".data "jobby".data).1 (by decide)).2,
   (C8_prompt_sections "r".data []).2.1⟩
